import Mathlib

/-!
Verification of the circleci-provisioning tool (Go) against its
natural-language specification.  The Go source is shallowly embedded:

* `Json`, `jsonParse` model JSON texts and parsing as performed by
  `encoding/json.Unmarshal` on the response bodies the client reads;
* `unmarshalEnvRecords`, `unmarshalDeleteStatus`, `unmarshalTriggerMessage`
  model `json.Unmarshal` into the concrete Go structs of project.go, all of
  whose fields are unexported and therefore never set by the decoder;
* `goPathJoin`, `escapePath`, `fmtURI` model `path.Join`, `net/url`
  path escaping and the client's URI construction;
* `Getenvs`, `Deleteenv`, `Trigger`, `AddSSHKey`, `Clearenv`, `Setenv`'s
  request body, `cleanProject`, `setEnvVars`, `addSSHKeys` and `mainRun`
  model the corresponding functions of project.go and main.go, with the
  HTTP transport abstracted to the response each call receives;
* `Yaml`, `decodeConfig`, `readConfig` model the YAML config loading of
  main.go (gopkg.in/yaml.v2 semantics for the `Config` struct).
-/

/-- JSON values.  Number literals keep their lexeme, mirroring the fact that
`encoding/json` re-reads the literal when decoding into a numeric Go type. -/
inductive Json where
  | null
  | bool (b : Bool)
  | num (lexeme : String)
  | str (s : String)
  | arr (items : List Json)
  | obj (fields : List (String × Json))

/-- JSON whitespace characters (RFC 8259). -/
def jwsChar (c : Char) : Bool := c == ' ' || c == '\t' || c == '\n' || c == '\r'

/-- Drop leading JSON whitespace. -/
def skipWs : List Char → List Char
  | [] => []
  | c :: cs => if jwsChar c then skipWs cs else c :: cs

/-- Value of a hexadecimal digit, if any. -/
def hexVal (c : Char) : Option Nat :=
  if '0' ≤ c ∧ c ≤ '9' then some (c.toNat - '0'.toNat)
  else if 'a' ≤ c ∧ c ≤ 'f' then some (c.toNat - 'a'.toNat + 10)
  else if 'A' ≤ c ∧ c ≤ 'F' then some (c.toNat - 'A'.toNat + 10)
  else none

/-- Parse the remainder of a JSON string literal, after the opening quote.
Returns the decoded characters and the input after the closing quote. -/
def parseJStringRest : List Char → Option (List Char × List Char)
  | [] => none
  | '"' :: cs => some ([], cs)
  | '\\' :: 'u' :: a :: b :: c :: d :: cs =>
    match hexVal a, hexVal b, hexVal c, hexVal d with
    | some ha, some hb, some hc, some hd =>
      (parseJStringRest cs).map
        (fun r => (Char.ofNat (((ha * 16 + hb) * 16 + hc) * 16 + hd) :: r.1, r.2))
    | _, _, _, _ => none
  | '\\' :: e :: cs =>
    let decoded : Option Char :=
      if e = '"' then some '"'
      else if e = '\\' then some '\\'
      else if e = '/' then some '/'
      else if e = 'b' then some (Char.ofNat 8)
      else if e = 'f' then some (Char.ofNat 12)
      else if e = 'n' then some '\n'
      else if e = 'r' then some '\r'
      else if e = 't' then some '\t'
      else none
    match decoded with
    | some ch => (parseJStringRest cs).map (fun r => (ch :: r.1, r.2))
    | none => none
  | c :: cs =>
    if c.toNat < 32 then none
    else (parseJStringRest cs).map (fun r => (c :: r.1, r.2))

/-- Longest prefix of decimal digits, and the rest. -/
def spanDigits : List Char → (List Char × List Char)
  | [] => ([], [])
  | c :: cs =>
    if '0' ≤ c && c ≤ '9' then
      let r := spanDigits cs
      (c :: r.1, r.2)
    else ([], c :: cs)

/-- Parse an optional JSON fraction part. -/
def parseFrac : List Char → Option (List Char × List Char)
  | '.' :: cs =>
    let r := spanDigits cs
    if r.1 = [] then none else some ('.' :: r.1, r.2)
  | cs => some ([], cs)

/-- Parse an optional JSON exponent part. -/
def parseExp : List Char → Option (List Char × List Char)
  | c :: s :: cs =>
    if c = 'e' ∨ c = 'E' then
      if s = '+' ∨ s = '-' then
        let r := spanDigits cs
        if r.1 = [] then none else some (c :: s :: r.1, r.2)
      else
        let r := spanDigits (s :: cs)
        if r.1 = [] then none else some (c :: r.1, r.2)
    else some ([], c :: s :: cs)
  | [c] =>
    if c = 'e' ∨ c = 'E' then none else some ([], [c])
  | [] => some ([], [])

/-- Parse a JSON number starting at the first character of its lexeme. -/
def parseNumber (cs : List Char) : Option (String × List Char) :=
  let split : List Char × List Char :=
    match cs with
    | '-' :: r => (['-'], r)
    | r => ([], r)
  let ds := spanDigits split.2
  if ds.1 = [] then none
  else if ds.1.length > 1 && ds.1.head? == some '0' then none
  else
    match parseFrac ds.2 with
    | none => none
    | some f =>
      match parseExp f.2 with
      | none => none
      | some e => some (String.mk (split.1 ++ ds.1 ++ f.1 ++ e.1), e.2)

mutual

/-- Fuel-indexed parser for one JSON value (leading whitespace allowed). -/
def parseValue : Nat → List Char → Option (Json × List Char)
  | 0, _ => none
  | fuel + 1, cs =>
    match skipWs cs with
    | [] => none
    | 'n' :: 'u' :: 'l' :: 'l' :: r => some (.null, r)
    | 't' :: 'r' :: 'u' :: 'e' :: r => some (.bool true, r)
    | 'f' :: 'a' :: 'l' :: 's' :: 'e' :: r => some (.bool false, r)
    | '"' :: r => (parseJStringRest r).map (fun p => (.str (String.mk p.1), p.2))
    | '\x5b' :: r =>
      match skipWs r with
      | '\x5d' :: r2 => some (.arr [], r2)
      | r2 => (parseItems fuel r2).map (fun p => (.arr p.1, p.2))
    | '\x7b' :: r =>
      match skipWs r with
      | '\x7d' :: r2 => some (.obj [], r2)
      | r2 => (parseFields fuel r2).map (fun p => (.obj p.1, p.2))
    | c :: r =>
      if c = '-' ∨ ('0' ≤ c ∧ c ≤ '9') then
        (parseNumber (c :: r)).map (fun p => (.num p.1, p.2))
      else none

/-- Fuel-indexed parser for the items of a non-empty JSON array. -/
def parseItems : Nat → List Char → Option (List Json × List Char)
  | 0, _ => none
  | fuel + 1, cs =>
    match parseValue fuel cs with
    | none => none
    | some jv =>
      match skipWs jv.2 with
      | ',' :: r2 => (parseItems fuel r2).map (fun p => (jv.1 :: p.1, p.2))
      | '\x5d' :: r2 => some ([jv.1], r2)
      | _ => none

/-- Fuel-indexed parser for the fields of a non-empty JSON object. -/
def parseFields : Nat → List Char → Option (List (String × Json) × List Char)
  | 0, _ => none
  | fuel + 1, cs =>
    match skipWs cs with
    | '"' :: r =>
      match parseJStringRest r with
      | none => none
      | some kp =>
        match skipWs kp.2 with
        | ':' :: r3 =>
          match parseValue fuel r3 with
          | none => none
          | some vp =>
            match skipWs vp.2 with
            | ',' :: r5 =>
              (parseFields fuel r5).map (fun p => ((String.mk kp.1, vp.1) :: p.1, p.2))
            | '\x7d' :: r5 => some ([(String.mk kp.1, vp.1)], r5)
            | _ => none
        | _ => none
    | _ => none

end

/-- Parse a complete JSON text, as `encoding/json.Unmarshal` does: one value,
possibly surrounded by whitespace, with nothing after it. -/
def jsonParse (s : String) : Option Json :=
  match parseValue (2 * s.length + 2) s.data with
  | some jr => if skipWs jr.2 = [] then some jr.1 else none
  | none => none

/-- An HTTP response as the client sees it: status code and body text.
Transport-level failures (the `err != nil` branches after each request) are
outside this model; every operation below is the client's handling of a
response it did receive. -/
structure HTTPResponse where
  statusCode : Nat
  body : String

/-- Whether an `Except` result is a success. -/
def exceptIsOk {α : Type} : Except String α → Bool
  | .ok _ => true
  | .error _ => false

/-- Go map assignment `m[k] = v` on an association-list model of
`map[string]string`: overwrite the value if the key is present, insert
otherwise.  (Go map iteration order is unspecified; this model fixes
insertion order, and nothing proved below depends on the order.) -/
def mapInsert (m : List (String × String)) (k v : String) : List (String × String) :=
  if m.any (fun e => e.1 == k) then m.map (fun e => if e.1 == k then (k, v) else e)
  else m ++ [(k, v)]

/-- Whether a JSON value may be decoded into a Go struct value
(`encoding/json` accepts an object, or `null` which leaves the struct as is). -/
def jsonIsObjOrNull : Json → Bool
  | .obj _ => true
  | .null => true
  | _ => false

/-- Model of `json.Unmarshal` into `[]struct{ name, value string }`
(Getenvs, project.go).  Both struct fields are unexported, so the decoder
never sets them: every object (or null) element produces the zero record
`("", "")`; a non-object element is a type error; a `null` top level leaves
the slice nil; any other top level is a type error. -/
def unmarshalEnvRecords : Json → Option (List (String × String))
  | .null => some []
  | .arr els => if els.all jsonIsObjOrNull then some (els.map fun _ => ("", "")) else none
  | _ => none

/-- Model of `json.Unmarshal` into `struct{ message string }` (Deleteenv,
project.go).  The `message` field is unexported, so after a successful
decode it always holds its zero value `""`. -/
def unmarshalDeleteStatus : Json → Option String
  | .null => some ""
  | .obj _ => some ""
  | _ => none

/-- Model of `json.Unmarshal` into `struct{ status int; body string }`
(Trigger, project.go).  Both fields are unexported, so after a successful
decode they always hold their zero values `(0, "")`. -/
def unmarshalTriggerMessage : Json → Option (Int × String)
  | .null => some (0, "")
  | .obj _ => some (0, "")
  | _ => none

/-- Model of `CircleCIProject.Getenvs` (project.go): require HTTP 200,
unmarshal the body into the (unexported-field) record slice, and build the
`map[string]string` by assigning each record's name to its value. -/
def Getenvs (resp : HTTPResponse) : Except String (List (String × String)) :=
  if resp.statusCode ≠ 200 then
    .error "could not get environment variables for project"
  else
    match jsonParse resp.body with
    | none => .error "could not unmarshall response body to get environment variables"
    | some j =>
      match unmarshalEnvRecords j with
      | none => .error "could not unmarshall response body to get environment variables"
      | some recs => .ok (recs.foldl (fun m r => mapInsert m r.1 r.2) [])

/-- Model of `CircleCIProject.Deleteenv` (project.go): require HTTP 200,
unmarshal the body into `struct{ message string }`, and require the decoded
`message` field to equal "ok". -/
def Deleteenv (name : String) (resp : HTTPResponse) : Except String Unit :=
  if resp.statusCode ≠ 200 then
    .error ("could not remove environment variable " ++ name)
  else
    match jsonParse resp.body with
    | none => .error "could not unmarshal response"
    | some j =>
      match unmarshalDeleteStatus j with
      | none => .error "could not unmarshal response"
      | some msg =>
        if msg ≠ "ok" then
          .error ("failed to remove environment variable " ++ name ++
            ": expected status ok but found " ++ msg)
        else .ok ()

/-- Model of `CircleCIProject.Trigger` (project.go): require HTTP 201,
unmarshal the body into `struct{ status int; body string }`, and require the
decoded fields to be `200` and "Build created". -/
def Trigger (resp : HTTPResponse) : Except String Unit :=
  if resp.statusCode ≠ 201 then
    .error "unexpected status code, expected 201"
  else
    match jsonParse resp.body with
    | none => .error "failed to unmarshal response body"
    | some j =>
      match unmarshalTriggerMessage j with
      | none => .error "failed to unmarshal response body"
      | some m =>
        if m.1 ≠ 200 then .error "expected message status to be 200"
        else if m.2 ≠ "Build created" then .error "expected message body to be Build created"
        else .ok ()

/-- Model of the request body `json.Marshal(postBody)` built by
`CircleCIProject.AddSSHKey` (project.go).  The struct's fields `hostname`
and `privateKey` are both unexported (the `json:"private_key"` tag sits on
an unexported field and is therefore ineffective), so `json.Marshal` emits
an object with no fields at all, whatever the arguments are. -/
def AddSSHKeyBody (name privateKey : String) : String := "\x7b\x7d"

/-- Model of `CircleCIProject.AddSSHKey`'s response handling (project.go):
success exactly when the HTTP status is 201. -/
def AddSSHKey (resp : HTTPResponse) : Except String Unit :=
  if resp.statusCode ≠ 201 then .error "expected status code 201" else .ok ()

/-- Model of the request body built by `CircleCIProject.Setenv`
(project.go): `fmt.Sprintf` interpolation of the raw name and value into a
JSON-looking template, with no escaping whatsoever. -/
def SetenvBody (name value : String) : String :=
  "\x7b\"name\": \"" ++ name ++ "\", \"value\": \"" ++ value ++ "\"\x7d"

/-- Deletion loop of `CircleCIProject.Clearenv` (project.go): delete each
listed variable in turn, returning at the first failure.  The second
component records the names passed to `Deleteenv`, in order, including a
final failing attempt. -/
def clearenvLoop (del : String → Except String Unit) :
    List (String × String) → Except String Unit × List String
  | [] => (.ok (), [])
  | (name, _) :: rest =>
    match del name with
    | .error e =>
      (.error ("could not remove environment variable " ++ name ++ " from project: " ++ e),
        [name])
    | .ok _ =>
      let r := clearenvLoop del rest
      (r.1, name :: r.2)

/-- Model of `CircleCIProject.Clearenv` (project.go): take the result of
`Getenvs` (first argument) and the outcome of each `Deleteenv` call (second
argument); fail if the listing failed, otherwise run the deletion loop. -/
def Clearenv (envs : Except String (List (String × String)))
    (del : String → Except String Unit) : Except String Unit × List String :=
  match envs with
  | .error e => (.error ("could not clean environment variables for project: " ++ e), [])
  | .ok envVars => clearenvLoop del envVars

/-- Model of `CircleCIProject.ClearSSHKeys` (project.go): unconditionally
the error "Not implemented". -/
def ClearSSHKeys : Except String Unit := .error "Not implemented"

/-- Model of `cleanProject` (main.go): run `Clearenv` (its result is the
argument), then `ClearSSHKeys`, failing at the first error. -/
def cleanProject (clearenvResult : Except String Unit) : Except String Unit :=
  match clearenvResult with
  | .error e => .error ("there was an error clearing environment variables from project: " ++ e)
  | .ok _ =>
    match ClearSSHKeys with
    | .error e => .error ("there was an error clearing SSH keys from project: " ++ e)
    | .ok _ => .ok ()

/-- Stack pass of Go `path.Clean` over the slash-separated components:
drop empty and "." components, resolve ".." against the accumulated stack
(discarding it at the root of an absolute path). -/
def cleanComps (abs : Bool) : List String → List String → List String
  | acc, [] => acc.reverse
  | acc, c :: cs =>
    if c = "" || c = "." then cleanComps abs acc cs
    else if c = ".." then
      match acc with
      | [] => if abs then cleanComps abs [] cs else cleanComps abs [".."] cs
      | top :: rest =>
        if top = ".." then cleanComps abs (".." :: top :: rest) cs
        else cleanComps abs rest cs
    else cleanComps abs (c :: acc) cs

/-- Split a character list at every slash (the components Go's `path.Clean`
walks over). -/
def splitSlash (acc : List Char) : List Char → List String
  | [] => [String.mk acc.reverse]
  | c :: cs =>
    if c = '/' then String.mk acc.reverse :: splitSlash [] cs
    else splitSlash (c :: acc) cs

/-- Model of Go `path.Clean`: lexical cleaning of a slash-separated path. -/
def goPathClean (p : String) : String :=
  if p = "" then "."
  else
    let abs := match p.data with
      | '/' :: _ => true
      | _ => false
    let comps := cleanComps abs [] (splitSlash [] p.data)
    let joined := String.intercalate "/" comps
    if abs then "/" ++ joined
    else if joined = "" then "." else joined

/-- Model of Go `path.Join`: join the elements from the first non-empty one
with slashes and clean the result; all-empty input yields "". -/
def goPathJoin (elems : List String) : String :=
  match elems.dropWhile (fun e => e = "") with
  | [] => ""
  | rest => goPathClean (String.intercalate "/" rest)

/-- Bytes that Go `net/url` leaves unescaped in a URL path
(`shouldEscape` with mode `encodePath`): alphanumerics, the unreserved
marks `-` `_` `.` `~`, and the reserved characters other than `?`. -/
def isPathSafeByte (b : Nat) : Bool :=
  (0x61 ≤ b && b ≤ 0x7a) || (0x41 ≤ b && b ≤ 0x5a) || (0x30 ≤ b && b ≤ 0x39) ||
  b == 0x2d || b == 0x5f || b == 0x2e || b == 0x7e ||
  b == 0x24 || b == 0x26 || b == 0x2b || b == 0x2c ||
  b == 0x2f || b == 0x3a || b == 0x3b || b == 0x3d || b == 0x40

/-- Uppercase hexadecimal digit, as used by `net/url` percent-escaping. -/
def hexUpper (n : Nat) : Char :=
  if n < 10 then Char.ofNat (0x30 + n) else Char.ofNat (0x41 + (n - 10))

/-- Percent-escape one byte. -/
def pctEncodeByte (b : Nat) : List Char := ['%', hexUpper (b / 16), hexUpper (b % 16)]

/-- UTF-8 encoding of one character, as the bytes Go iterates over when
escaping a string. -/
def utf8Bytes (c : Char) : List Nat :=
  let n := c.toNat
  if n < 0x80 then [n]
  else if n < 0x800 then [0xc0 + n / 0x40, 0x80 + n % 0x40]
  else if n < 0x10000 then [0xe0 + n / 0x1000, 0x80 + n / 0x40 % 0x40, 0x80 + n % 0x40]
  else [0xf0 + n / 0x40000, 0x80 + n / 0x1000 % 0x40, 0x80 + n / 0x40 % 0x40, 0x80 + n % 0x40]

/-- Model of `(*url.URL).EscapedPath` on a URL whose `Path` was assigned
directly (so `RawPath` is empty): escape every byte not allowed in a path. -/
def escapePath (s : String) : String :=
  String.mk (s.data.foldr
    (fun c acc =>
      ((utf8Bytes c).foldr
        (fun b acc2 => (if isPathSafeByte b then [Char.ofNat b] else pctEncodeByte b) ++ acc2)
        []) ++ acc)
    [])

/-- The identifying fields of `CircleCIProject` (project.go). -/
structure CircleCIProject where
  vcsType : String
  owner : String
  projectName : String
  token : String

/-- Model of `CircleCIProject.fmtURI` (project.go).  `url.Parse` of the base
yields scheme "https", host "circleci.com", path "/api/v1.1" and an empty
query; the code then assigns `url.Path = path.Join(...)`.  The line
`url.Query().Set("circle-token", p.token)` mutates only the fresh values
copy returned by `Query()`, so `RawQuery` stays empty and `url.String()`
emits scheme, host and escaped path with no query component at all. -/
def fmtURI (p : CircleCIProject) (resource action : String) : String :=
  let joined := goPathJoin ["/api/v1.1", resource, p.vcsType, p.owner, p.projectName, action]
  "https://circleci.com" ++ escapePath joined

/-- Model of the URL built by the earlier revision of `Follow`
(project.go, second revision): direct `fmt.Sprintf` interpolation of the
identity fields and token, with no percent-encoding. -/
def followURLSprintf (p : CircleCIProject) : String :=
  "https://circleci.com/api/v1.1/project/" ++ p.vcsType ++ "/" ++ p.owner ++ "/" ++
    p.projectName ++ "/follow?circle-token=" ++ p.token

/-- Outcomes of the remote calls and file reads the orchestrator performs,
abstracting the HTTP transport and filesystem. -/
structure OpOutcomes where
  unfollowResult : Except String Unit
  followResult : Except String Unit
  getenvsResult : Except String (List (String × String))
  deleteenvResult : String → Except String Unit
  setenvResult : String → String → Except String Unit
  readFileResult : String → Except String String
  addSSHKeyResult : String → String → Except String Unit
  triggerResult : Except String Unit

/-- The `Config` struct of main.go (maps modelled as association lists). -/
structure Config where
  vcsType : String
  owner : String
  projectName : String
  envVars : List (String × String)
  sshKeys : List (String × String)

/-- Model of `setEnvVars` (main.go): set each configured variable in turn,
failing at the first error. -/
def setEnvVars (setenv : String → String → Except String Unit) :
    List (String × String) → Except String Unit
  | [] => .ok ()
  | (k, v) :: rest =>
    match setenv k v with
    | .error e => .error ("could not set environment variable " ++ k ++ ": " ++ e)
    | .ok _ => setEnvVars setenv rest

/-- Model of `addSSHKeys` (main.go): for each configured key, read the file
at its path and add the key, failing at the first error. -/
def addSSHKeys (readFile : String → Except String String)
    (add : String → String → Except String Unit) :
    List (String × String) → Except String Unit
  | [] => .ok ()
  | (name, path) :: rest =>
    match readFile path with
    | .error e => .error ("could not open SSH key at path " ++ path ++ ": " ++ e)
    | .ok content =>
      match add name content with
      | .error e => .error ("could not add SSH key " ++ path ++ ": " ++ e)
      | .ok _ => addSSHKeys readFile add rest

/-- Model of `main` (main.go) from the point where the config has been read
and the project constructed; the result is the process exit code
(`log.Fatalf` exits with 1, normal return exits with 0).  In the unfollow
branch the code calls `project.Unfollow()` and returns without inspecting
its result, so that branch exits 0 whatever the call's outcome. -/
def mainRun (shouldUnfollow isCanonical shouldTrigger : Bool)
    (config : Config) (ops : OpOutcomes) : Nat :=
  if shouldUnfollow then
    let _ := ops.unfollowResult
    0
  else
    match ops.followResult with
    | .error _ => 1
    | .ok _ =>
      let canonicalStep : Except String Unit :=
        if isCanonical then cleanProject (Clearenv ops.getenvsResult ops.deleteenvResult).1
        else .ok ()
      match canonicalStep with
      | .error _ => 1
      | .ok _ =>
        match setEnvVars ops.setenvResult config.envVars with
        | .error _ => 1
        | .ok _ =>
          match addSSHKeys ops.readFileResult ops.addSSHKeyResult config.sshKeys with
          | .error _ => 1
          | .ok _ =>
            if shouldTrigger then
              match ops.triggerResult with
              | .error _ => 1
              | .ok _ => 0
            else 0

/-- YAML nodes, as far as the `Config` schema of main.go can see them. -/
inductive Yaml where
  | null
  | bool (b : Bool)
  | int (n : Int)
  | str (s : String)
  | seq (items : List Yaml)
  | map (entries : List (String × Yaml))

/-- Decode a YAML node into a Go `string` field, per gopkg.in/yaml.v2:
a string scalar gives its value, a null node leaves the zero value "",
anything else is a type error. -/
def decodeYamlString : Yaml → Option String
  | .null => some ""
  | .str s => some s
  | _ => none

/-- Decode a YAML node into a Go `map[string]string` field: a mapping whose
values all decode as strings, or a null node which leaves the map empty. -/
def decodeYamlStrMap : Yaml → Option (List (String × String))
  | .null => some []
  | .map entries =>
    entries.mapM (fun e => (decodeYamlString e.2).map (fun v => (e.1, v)))
  | _ => none

/-- First binding of a key in a YAML mapping. -/
def lookupYaml (entries : List (String × Yaml)) (k : String) : Option Yaml :=
  (entries.find? (fun e => e.1 == k)).map (fun e => e.2)

/-- Decode one `string` struct field: an absent key leaves the zero value "". -/
def decodeStringField (entries : List (String × Yaml)) (k : String) : Option String :=
  match lookupYaml entries k with
  | none => some ""
  | some y => decodeYamlString y

/-- Decode one `map[string]string` struct field: an absent key leaves the
zero value, the empty map. -/
def decodeMapField (entries : List (String × Yaml)) (k : String) :
    Option (List (String × String)) :=
  match lookupYaml entries k with
  | none => some []
  | some y => decodeYamlStrMap y

/-- Model of `yaml.Unmarshal` into the `Config` struct of main.go: the
document must be a mapping (or empty/null, leaving the zero config); each
tagged field is decoded from its key when present and left at its zero
value when absent; unknown keys are ignored. -/
def decodeConfig : Yaml → Option Config
  | .null => some ⟨"", "", "", [], []⟩
  | .map entries =>
    match decodeStringField entries "vcsType", decodeStringField entries "owner",
        decodeStringField entries "projectName", decodeMapField entries "envVars",
        decodeMapField entries "sshKeys" with
    | some v, some o, some p, some e, some k => some ⟨v, o, p, e, k⟩
    | _, _, _, _, _ => none
  | _ => none

/-- Model of `readConfig` (main.go).  The argument abstracts opening and
reading the file: an `error` is a failed open/read, `ok none` is content
that is not syntactically valid YAML, and `ok (some doc)` is the parsed
document handed to `yaml.Unmarshal`. -/
def readConfig (file : Except String (Option Yaml)) : Except String Config :=
  match file with
  | .error e => .error e
  | .ok none => .error "could not unmarshal config file"
  | .ok (some doc) =>
    match decodeConfig doc with
    | none => .error "could not unmarshal config file"
    | some c => .ok c

/-- Last binding of a key among JSON object fields, as `encoding/json`
resolves duplicate keys. -/
def lookupLastField (fields : List (String × Json)) (k : String) : Option Json :=
  (fields.reverse.find? (fun f => f.1 == k)).map (fun f => f.2)

/-- Whether a JSON object field holds exactly the given string. -/
def jsonFieldIsStr (fields : List (String × Json)) (k v : String) : Bool :=
  match lookupLastField fields k with
  | some (.str s) => s == v
  | _ => false

/-- Whether a request body is a valid JSON encoding of exactly the given
string fields: it must parse as a JSON object whose effective value at each
wanted key is the wanted string, with no keys beyond the wanted ones. -/
def bodyEncodesObj (body : String) (want : List (String × String)) : Bool :=
  match jsonParse body with
  | some (.obj fields) =>
    want.all (fun kv => jsonFieldIsStr fields kv.1 kv.2) &&
    fields.all (fun f => want.any (fun kv => kv.1 == f.1))
  | _ => false

/-- C1: refutation at the repository's own test inputs.  `fmtURI` produces
the expected base-joined, percent-encoded path, but no `circle-token` query
parameter at all (the `url.Query().Set` call mutates a discarded copy), so
it differs from the URI the claim (and `TestFmtUri`) states; the earlier
Sprintf revision of `Follow` carries the token but leaves a space in the
project name unencoded. -/
theorem fmtURI_omits_token :
    fmtURI ⟨"git", "test", "test", "token"⟩ "project" "follow" =
      "https://circleci.com/api/v1.1/project/git/test/test/follow" ∧
    fmtURI ⟨"git", "test", "test", "token"⟩ "project" "follow" ≠
      "https://circleci.com/api/v1.1/project/git/test/test/follow?circle-token=token" ∧
    fmtURI ⟨"git", "owner", "project name", "token"⟩ "resource" "action" =
      "https://circleci.com/api/v1.1/resource/git/owner/project%20name/action" ∧
    followURLSprintf ⟨"git", "owner", "project name", "token"⟩ =
      "https://circleci.com/api/v1.1/project/git/owner/project name/follow?circle-token=token" :=
  ⟨rfl, by decide, rfl, rfl⟩

/-- C2: refutation at a well-formed two-record response.  With HTTP 200 and
body `[{"name": "A", "value": "1"}, {"name": "B", "value": "2"}]`, `Getenvs`
returns the single-entry mapping `{"": ""}` rather than the two listed
pairs, because the record struct's fields are unexported and
`encoding/json` never sets them. -/
theorem getenvs_zero_records :
    Getenvs ⟨200,
        "[\x7b\"name\": \"A\", \"value\": \"1\"\x7d, \x7b\"name\": \"B\", \"value\": \"2\"\x7d]"⟩ =
      .ok [("", "")] := rfl

/-- C3: refutation at a project with two server-side variables.  Because
`Getenvs` collapses every record to the empty name, `Clearenv` issues
exactly one `Deleteenv` call (for the name ""), not two, even though every
deletion succeeds. -/
theorem clearenv_two_vars_one_delete :
    (Clearenv (Getenvs ⟨200,
        "[\x7b\"name\": \"A\", \"value\": \"1\"\x7d, \x7b\"name\": \"B\", \"value\": \"2\"\x7d]"⟩)
      (fun _ => Except.ok ())).2 = [""] ∧
    (Clearenv (Getenvs ⟨200,
        "[\x7b\"name\": \"A\", \"value\": \"1\"\x7d, \x7b\"name\": \"B\", \"value\": \"2\"\x7d]"⟩)
      (fun _ => Except.ok ())).1 = Except.ok () :=
  ⟨rfl, rfl⟩

/-- C4: refutation.  A 201 response whose body is exactly
`{"status": 200, "body": "Build created"}` still fails, and in fact
`Trigger` fails on every response: the message struct's fields are
unexported, so the decoded status is always 0. -/
theorem trigger_never_succeeds :
    exceptIsOk (Trigger ⟨201, "\x7b\"status\": 200, \"body\": \"Build created\"\x7d"⟩) = false ∧
    ∀ resp : HTTPResponse, exceptIsOk (Trigger resp) = false := by
  refine ⟨rfl, fun resp => ?_⟩
  unfold Trigger
  split
  · rfl
  · cases hj : jsonParse resp.body with
    | none => rfl
    | some j => cases j <;> rfl

/-- C5: refutation.  A 200 response whose body has a status field "ok" (or
even a message field "ok") still fails, and in fact `Deleteenv` fails on
every response: the code reads the unexported `message` field, which
`encoding/json` never sets, so the comparison against "ok" never holds. -/
theorem deleteenv_never_succeeds :
    exceptIsOk (Deleteenv "FOO" ⟨200, "\x7b\"status\": \"ok\"\x7d"⟩) = false ∧
    exceptIsOk (Deleteenv "FOO" ⟨200, "\x7b\"message\": \"ok\"\x7d"⟩) = false ∧
    ∀ (name : String) (resp : HTTPResponse), exceptIsOk (Deleteenv name resp) = false := by
  refine ⟨rfl, rfl, fun name resp => ?_⟩
  unfold Deleteenv
  split
  · rfl
  · cases hj : jsonParse resp.body with
    | none => rfl
    | some j => cases j <;> rfl

/-- C6: refutation of the body clause.  `AddSSHKey` marshals a struct whose
fields are both unexported, so the POST body is the empty object `{}` and
encodes neither the hostname nor the private key; the status-code clause
(success exactly on HTTP 201) does hold. -/
theorem addsshkey_sends_empty_object :
    AddSSHKeyBody "deploy" "PRIVATE KEY MATERIAL" = "\x7b\x7d" ∧
    bodyEncodesObj (AddSSHKeyBody "deploy" "PRIVATE KEY MATERIAL")
      [("hostname", "deploy"), ("private_key", "PRIVATE KEY MATERIAL")] = false ∧
    ∀ resp : HTTPResponse, (exceptIsOk (AddSSHKey resp) = true ↔ resp.statusCode = 201) := by
  refine ⟨rfl, by decide, fun resp => ?_⟩
  unfold AddSSHKey
  by_cases h : resp.statusCode = 201
  · simp [h, exceptIsOk]
  · simp [h, exceptIsOk]

/-- C7: refutation.  In the unfollow branch `main` calls `Unfollow()`,
discards its result and returns, so the process exits 0 whatever happened —
in particular it exits 0 when the unfollow call failed, where the claim
requires a non-zero exit. -/
theorem main_unfollow_ignores_error :
    (∀ (b1 b2 : Bool) (config : Config) (ops : OpOutcomes),
      mainRun true b1 b2 config ops = 0) ∧
    mainRun true false false ⟨"git", "octocat", "repo", [], []⟩
      ⟨.error "connection refused", .ok (), .ok [], fun _ => .ok (), fun _ _ => .ok (),
        fun _ => .ok "", fun _ _ => .ok (), .ok ()⟩ = 0 :=
  ⟨fun _ _ _ _ => rfl, rfl⟩

/-- C8: a config document that omits the `envVars` key (and whose present
fields are well-typed) loads successfully and yields the empty
environment-variable mapping; absent mappings simply keep their zero
values. -/
theorem readConfig_absent_envVars (entries : List (String × Yaml))
    (v o p : String) (ks : List (String × String))
    (habs : lookupYaml entries "envVars" = none)
    (hv : decodeStringField entries "vcsType" = some v)
    (ho : decodeStringField entries "owner" = some o)
    (hp : decodeStringField entries "projectName" = some p)
    (hk : decodeMapField entries "sshKeys" = some ks) :
    readConfig (.ok (some (.map entries))) = .ok ⟨v, o, p, [], ks⟩ := by
  have he : decodeMapField entries "envVars" = some [] := by
    unfold decodeMapField
    rw [habs]
  simp only [readConfig, decodeConfig, hv, ho, hp, he, hk]

/-- C8 witness: a concrete document with only a `vcsType` key loads to the
config with empty environment-variable and SSH-key mappings. -/
theorem readConfig_absent_envVars_witness :
    readConfig (.ok (some (.map [("vcsType", Yaml.str "git")]))) =
      .ok ⟨"git", "", "", [], []⟩ :=
  readConfig_absent_envVars [("vcsType", Yaml.str "git")] "git" "" "" [] rfl rfl rfl rfl rfl

/-- C9: `cleanProject` returns an error for every outcome of the
environment-variable clearing step, because `ClearSSHKeys` unconditionally
returns the "Not implemented" error. -/
theorem cleanProject_always_fails :
    ∀ r : Except String Unit, exceptIsOk (cleanProject r) = false := by
  intro r
  cases r <;> rfl

/-- C10: `Setenv` builds its request body by raw interpolation into the
template `{"name": "%s", "value": "%s"}`, and there are inputs (a name
containing a double quote) for which that body is not a valid JSON encoding
of the pair — it does not even parse as JSON. -/
theorem setenv_body_unescaped :
    (∀ name value, SetenvBody name value =
      "\x7b\"name\": \"" ++ name ++ "\", \"value\": \"" ++ value ++ "\"\x7d") ∧
    ∃ name value, bodyEncodesObj (SetenvBody name value)
      [("name", name), ("value", value)] = false :=
  ⟨fun _ _ => rfl, ⟨"a\"b", "c", by decide⟩⟩
